import Mathlib

/-!
Animated SVG text generator: a model of `generateSVG` (src/js/script.js)

The development embeds the function `generateSVG` of `src/js/script.js`.

Modelling conventions.

* A JavaScript string is the list of its UTF-16 code units (`JsString`), so that
  `text.split('')`, `text.length`, `text.trim()` and `text.replace(/\s/g, '')` act on the
  same units as in the source.
* JavaScript numbers are exact rationals: `0.4` is `2/5`, `0.7` is `7/10`, and so on.
  The one place where the source applies a discontinuous function to the result of
  an arithmetic expression is `Math.ceil` in the fallback path length (line 105);
  there every operation is rounded to binary64 as IEEE 754 prescribes
  (`roundBinary64`), so that the integer that is emitted is the one of the source.
  `NaN`, the infinities and overflow are outside the model.
* The form fields are taken after `parseFloat` / `parseInt`: `none` stands for `NaN`.
* The browser's measurement facility (`getTotalLength`, `getBBox`) is an oracle whose
  calls either return a number or throw (`none`).
* The DOM that `generateSVG` builds is a record; a template literal is kept as the
  sequence of its declarations, every interpolated number keeping the value that is
  formatted together with the way it is formatted (`Num`).
-/

set_option linter.unusedVariables false

namespace SvgText

/-! ## Strings -/

/-- A JavaScript string, as the list of its UTF-16 code units. -/
abbrev JsString := List Nat

/-- The code units that ECMAScript classes as WhiteSpace or LineTerminator: exactly what
`String.prototype.trim` strips and what the regular expression `\s` matches. -/
def isWhiteSpace (c : Nat) : Bool :=
  c == 0x0009 || c == 0x000A || c == 0x000B || c == 0x000C || c == 0x000D ||
  c == 0x0020 || c == 0x00A0 || c == 0x1680 || (0x2000 ≤ c && c ≤ 0x200A) ||
  c == 0x2028 || c == 0x2029 || c == 0x202F || c == 0x205F || c == 0x3000 ||
  c == 0xFEFF

/-- The method `String.prototype.trim`: white space is removed from both ends. -/
def trim (s : JsString) : JsString :=
  ((s.dropWhile isWhiteSpace).reverse.dropWhile isWhiteSpace).reverse

/-- The call `s.replace(/\s/g, '')`: every white-space code unit is removed. -/
def removeWhiteSpace (s : JsString) : JsString :=
  s.filter (fun c => !isWhiteSpace c)

/-- The string literal `'SVG Text'`. -/
def defaultText : JsString := [83, 86, 71, 32, 84, 101, 120, 116]

/-! ## Inputs -/

/-- The values of the form fields read by `generateSVG` (script.js, lines 52-61). The
numeric fields hold the result of `parseFloat` / `parseInt`, `none` standing for `NaN`. -/
structure Form where
  inputText : JsString
  fontFamily : String
  duration : Option ℚ
  fontSize : Option ℤ
  letterSpacing : Option ℚ
  fontWeight : String
  strokeWidth : String
  strokeColor : String
  fillColor : String
  animationStyle : String

/-- The expression `s || d` on a string: the empty string is falsy. -/
def strOr (s d : String) : String := if s = "" then d else s

/-- The expression `s || d` on a JavaScript string given by its code units. -/
def textOr (s d : JsString) : JsString := if s = [] then d else s

/-- The expression `parseFloat(..) || d`: `NaN` and `0` are falsy. -/
def numOr (v : Option ℚ) (d : ℚ) : ℚ :=
  match v with
  | some q => if q = 0 then d else q
  | none => d

/-- The expression `parseInt(..) || d`: `NaN` and `0` are falsy. -/
def intOr (v : Option ℤ) (d : ℤ) : ℤ :=
  match v with
  | some q => if q = 0 then d else q
  | none => d

/-- The measurement facility of the browser. `getTotalLength text` is the call
`tempFullText.getTotalLength()` with `text` as content, `getBBoxWidth c` the call
`tempChar.getBBox().width` with the single code unit `c` as content; `none` means
that the call throws. -/
structure Measurer where
  getTotalLength : JsString → Option ℚ
  getBBoxWidth : Nat → Option ℚ

/-! ## The document that is built -/

/-- A number inside a template literal, with the way it is written out. -/
inductive Num where
  | lit (q : ℚ)
  | interp (q : ℚ)
  | toFixed (q : ℚ) (digits : Nat)
  deriving DecidableEq

/-- The value that is formatted. -/
def Num.val : Num → ℚ
  | .lit q => q
  | .interp q => q
  | .toFixed q _ => q

/-- One entry of an `animation:` shorthand: `name <duration>s <rest>`. -/
structure Anim where
  name : String
  duration : Num
  rest : String
  deriving DecidableEq

/-- The value of a CSS declaration. -/
inductive CssValue where
  | text (s : String)
  | quantity (n : Num) (unit : String)
  | animations (l : List Anim)
  | times (l : List Num)
  deriving DecidableEq

/-- A CSS declaration `property: value;`. -/
structure Decl where
  property : String
  value : CssValue
  deriving DecidableEq

/-- A top-level item of the style sheet: an element rule or a `@keyframes` block. -/
inductive CssItem where
  | rule (selector : String) (decls : List Decl)
  | keyframes (name : String) (frames : List (String × List Decl))
  deriving DecidableEq

/-- The text of the `style` element. -/
abbrev StyleSheet := List CssItem

/-- The selectors of the element rules of a style sheet, in order. -/
def StyleSheet.selectors (s : StyleSheet) : List String :=
  s.filterMap (fun item => match item with
    | .rule sel _ => some sel
    | .keyframes _ _ => none)

/-- The names of the `@keyframes` blocks of a style sheet, in order. -/
def StyleSheet.keyframeNames (s : StyleSheet) : List String :=
  s.filterMap (fun item => match item with
    | .rule _ _ => none
    | .keyframes n _ => some n)

/-- The declarations of the element rule with the given selector. -/
def StyleSheet.declsOf (s : StyleSheet) (sel : String) : List Decl :=
  (s.filterMap (fun item => match item with
    | .rule sel2 ds => if sel2 = sel then some ds else none
    | .keyframes _ _ => none)).flatten

/-- An SVG `text` element. -/
structure TextEl where
  textContent : JsString
  x : ℚ
  y : ℚ
  textAnchor : Option String
  style : List Decl
  classList : List String
  id : Option String
  deriving DecidableEq

/-- The properties that the inline style of an element declares. -/
def TextEl.styleProperties (e : TextEl) : List String := e.style.map Decl.property

/-- The final `svg` element: its attributes, its `style` child and its `text` children. -/
structure Svg where
  width : String
  viewBox : List ℚ
  preserveAspectRatio : String
  style : StyleSheet
  texts : List TextEl
  deriving DecidableEq

/-- The content of `#svgContainer`. -/
inductive Container where
  | empty
  | html (markup : String)
  | svg (s : Svg)
  deriving DecidableEq

/-- The part of the page that `generateSVG` writes. -/
structure Page where
  svgContainer : Container
  copyBtnDisabled : Bool
  deriving DecidableEq

/-! ## Measurement (script.js, lines 80-140) -/

/-- Rounding to the nearest integer, a tie going to the even one. -/
def roundHalfEven (x : ℚ) : ℤ :=
  let f := ⌊x⌋
  let r := x - f
  if r < 1 / 2 then f
  else if 1 / 2 < r then f + 1
  else if f % 2 = 0 then f else f + 1

/-- The exponent of the binade of a non-zero magnitude, the subnormal numbers sharing
the exponent -1022. -/
def binary64Exponent (q : ℚ) : ℤ := max (Int.log 2 |q|) (-1022)

/-- The binary64 number nearest to an exact result, a tie going to the even
significand (IEEE 754 round to nearest, 53 significant bits). -/
def roundBinary64 (q : ℚ) : ℚ :=
  if q = 0 then 0
  else
    let ulp : ℚ := 2 ^ (binary64Exponent q - 52)
    roundHalfEven (q / ulp) * ulp

/-- The JavaScript product `a * b` of two numbers. -/
def mulBinary64 (a b : ℚ) : ℚ := roundBinary64 (a * b)

/-- The JavaScript quotient `a / b` of two numbers. -/
def divBinary64 (a b : ℚ) : ℚ := roundBinary64 (a / b)

/-- The JavaScript sum `a + b` of two numbers. -/
def addBinary64 (a b : ℚ) : ℚ := roundBinary64 (a + b)

/-- Lines 98-107: the path length, with the scaled fallback when `getTotalLength` throws.
The operands of `Math.ceil` are computed in binary64. -/
def textPathLength (m : Measurer) (text : JsString) (fontSize : ℤ) (letterSpacing : ℚ) : ℚ :=
  match m.getTotalLength text with
  | some l => l
  | none =>
    let BASE_FONT_SIZE : ℚ := 60
    let fallbackPathLength : ℚ :=
      addBinary64 (mulBinary64 text.length 150)
        (mulBinary64 (mulBinary64 letterSpacing text.length) 2)
    ((⌈mulBinary64 (divBinary64 (fontSize : ℚ) BASE_FONT_SIZE) fallbackPathLength⌉ : ℤ) : ℚ)

/-- The state of the loop of lines 115-138. -/
structure MeasureState where
  charWidths : List ℚ
  currentX : ℚ

/-- The width that one pass of the loop of lines 115-138 pushes for `char`. -/
def measureChar (m : Measurer) (fontSize : ℤ) (letterSpacing : ℚ) (char : Nat) : ℚ :=
  if trim [char] = [] then
    (fontSize : ℚ) * 0.4 + letterSpacing
  else
    match m.getBBoxWidth char with
    | some width => width + letterSpacing
    | none => (fontSize : ℚ) * 0.6 + letterSpacing

/-- The loop of lines 115-138 over the remaining characters. -/
def measureLoop (m : Measurer) (fontSize : ℤ) (letterSpacing : ℚ) :
    List Nat → MeasureState → MeasureState
  | [], st => st
  | char :: rest, st =>
    let w := measureChar m fontSize letterSpacing char
    measureLoop m fontSize letterSpacing rest
      { charWidths := st.charWidths ++ [w], currentX := st.currentX + w }

/-- The array `textMetrics.charWidths` after the loop. -/
def charWidths (m : Measurer) (fontSize : ℤ) (letterSpacing : ℚ) (characters : List Nat) :
    List ℚ :=
  (measureLoop m fontSize letterSpacing characters { charWidths := [], currentX := 0 }).charWidths

/-! ## Style sheet (script.js, lines 154-224) -/

/-- Line 208: `Math.max(0.2, duration / totalChars * 0.75)`. -/
def charDuration (duration : ℚ) (totalChars : Nat) : ℚ :=
  max 0.2 (duration / totalChars * 0.75)

/-- Line 209: the `staggerDelay` of the style-sheet branch. The source computes it and
does not use it. -/
def sheetStaggerDelay (duration : ℚ) (totalChars : Nat) : ℚ :=
  (duration - charDuration duration totalChars) / totalChars

/-- Lines 155-224: the template `animationStyles`. -/
def animationStyles (animationStyle : String) (duration textPathLength : ℚ)
    (strokeColor fillColor : String) (totalChars : Nat) : StyleSheet :=
  if animationStyle = "stroke-draw" then
    let fillDelay := duration * 0.7
    let fillDuration := duration - fillDelay
    [ .rule "#animatedText"
        [ ⟨"stroke-dasharray", .quantity (.interp textPathLength) ""⟩,
          ⟨"stroke-dashoffset", .quantity (.interp textPathLength) ""⟩,
          ⟨"stroke", .text strokeColor⟩,
          ⟨"fill", .text "transparent"⟩,
          ⟨"opacity", .text "1"⟩,
          ⟨"animation", .animations
            [ ⟨"stroke-draw-path", .interp duration, "ease-in-out forwards"⟩,
              ⟨"fill-fade-color", .toFixed fillDuration 2, "forwards"⟩ ]⟩,
          ⟨"animation-delay", .times [.lit 0, .toFixed fillDelay 2]⟩ ],
      .keyframes "stroke-draw-path" [("to", [⟨"stroke-dashoffset", .text "0"⟩])],
      .keyframes "fill-fade-color"
        [ ("from", [⟨"fill", .text "transparent"⟩]),
          ("to", [⟨"fill", .text fillColor⟩]) ] ]
  else if animationStyle = "fill-fade" then
    [ .rule "#animatedText"
        [ ⟨"stroke", .text "transparent"⟩,
          ⟨"fill", .text fillColor⟩,
          ⟨"opacity", .text "0"⟩,
          ⟨"animation", .animations [⟨"fill-fade-opacity", .interp duration, "ease-out forwards"⟩]⟩ ],
      .keyframes "fill-fade-opacity" [("to", [⟨"opacity", .text "1"⟩])] ]
  else if animationStyle = "letters-fade-in" then
    let charDuration := charDuration duration totalChars
    let staggerDelay := sheetStaggerDelay duration totalChars
    [ .rule ".fade-char"
        [ ⟨"stroke", .text "transparent"⟩,
          ⟨"fill", .text fillColor⟩,
          ⟨"opacity", .text "0"⟩,
          ⟨"animation", .animations [⟨"letter-fade", .toFixed charDuration 2, "ease-out forwards"⟩]⟩ ],
      .keyframes "letter-fade"
        [ ("0%", [⟨"opacity", .text "0"⟩]),
          ("100%", [⟨"opacity", .text "1"⟩]) ] ]
  else
    []

/-- Lines 233-239: the template `baseTextStyle`. -/
def baseTextStyle (fontSize : ℤ) (fontWeight fontFamily strokeWidth : String) : List Decl :=
  [ ⟨"font-size", .quantity (.interp fontSize) "px"⟩,
    ⟨"font-weight", .text fontWeight⟩,
    ⟨"font-family", .text fontFamily⟩,
    ⟨"dominant-baseline", .text "central"⟩,
    ⟨"stroke-width", .text strokeWidth⟩ ]

/-! ## Text elements (script.js, lines 241-287) -/

/-- Line 148. -/
def textXPosition : ℚ := 10

/-- Line 147. -/
def FIXED_VIEWBOX_HEIGHT : ℚ := 150

/-- Line 146. -/
def FIXED_VIEWBOX_WIDTH : ℚ := 600

/-- Line 149. -/
def textYPosition : ℚ := FIXED_VIEWBOX_HEIGHT / 2

/-- Line 245: the `staggerDelay` of the element loop, the one the delays are made of. -/
def staggerDelay (duration : ℚ) (characters : List Nat) : ℚ :=
  (duration / characters.length) * 0.5

/-- The variables that the callback of `characters.forEach` updates (lines 243-273),
with the children appended to the `svg` element so far. -/
structure LetterState where
  currentXPosition : ℚ
  charIndex : Nat
  children : List TextEl

/-- Lines 251-269: the element that one call of the callback creates for `char`, when
the accumulator is `x` and the counter `charIndex` is `k`. -/
def letterEl (base : List Decl) (fillColor : String) (staggerDelay : ℚ) (char : Nat)
    (x : ℚ) (k : Nat) : TextEl :=
  if trim [char] ≠ [] then
    let delay := staggerDelay * k
    { textContent := [char], x := x, y := textYPosition, textAnchor := none,
      style := base ++ [⟨"animation-delay", .quantity (.toFixed delay 3) "s"⟩],
      classList := ["fade-char"], id := none }
  else
    { textContent := [char], x := x, y := textYPosition, textAnchor := none,
      style := base ++ [⟨"fill", .text fillColor⟩, ⟨"opacity", .text "1"⟩],
      classList := [], id := none }

/-- One call of the callback of lines 248-273, for the character `char` at index `i`:
the element is appended, `charIndex` is incremented for a character that does not trim
to the empty string, and the accumulator advances by `charWidths[i]`. The index is
always within `charWidths` (see `charWidths_length`); outside it the source would read
`undefined`, here `0`. -/
def letterStep (base : List Decl) (fillColor : String) (staggerDelay : ℚ)
    (charWidths : List ℚ) (st : LetterState) (char : Nat) (i : Nat) : LetterState :=
  let charWidth := charWidths.getD i 0
  { currentXPosition := st.currentXPosition + charWidth
    charIndex := if trim [char] ≠ [] then st.charIndex + 1 else st.charIndex
    children := st.children ++
      [letterEl base fillColor staggerDelay char st.currentXPosition st.charIndex] }

/-- The iteration `characters.forEach((char, i) => ..)` from index `i` on. -/
def letterLoop (base : List Decl) (fillColor : String) (staggerDelay : ℚ)
    (charWidths : List ℚ) : List Nat → Nat → LetterState → LetterState
  | [], _, st => st
  | char :: rest, i, st =>
    letterLoop base fillColor staggerDelay charWidths rest (i + 1)
      (letterStep base fillColor staggerDelay charWidths st char i)

/-- Lines 243-273: the state after the whole `forEach`. -/
def lettersFadeIn (base : List Decl) (fillColor : String) (duration : ℚ)
    (charWidths : List ℚ) (characters : List Nat) : LetterState :=
  letterLoop base fillColor (staggerDelay duration characters) charWidths characters 0
    { currentXPosition := textXPosition, charIndex := 0, children := [] }

/-- Lines 276-284: the single element of the modes other than `letters-fade-in`. -/
def singleText (base : List Decl) (text : JsString) (letterSpacing : ℚ) : TextEl :=
  { textContent := text, x := textXPosition, y := textYPosition,
    textAnchor := some "start",
    style := base ++ [⟨"letter-spacing", .quantity (.interp letterSpacing) "px"⟩],
    classList := [], id := some "animatedText" }

/-! ## `generateSVG` (script.js, lines 50-292) -/

/-- Line 52: the text that is rendered. -/
def Form.text (f : Form) : JsString := textOr f.inputText defaultText

/-- Line 54. -/
def Form.durationValue (f : Form) : ℚ := numOr f.duration 3

/-- Line 55. -/
def Form.fontSizeValue (f : Form) : ℤ := intOr f.fontSize 60

/-- Line 56. -/
def Form.letterSpacingValue (f : Form) : ℚ := numOr f.letterSpacing 0

/-- Line 76: `text.split('')`, one entry per code unit. -/
def Form.characters (f : Form) : List Nat := f.text

/-- Lines 77-78: the length of the text without its white space. -/
def Form.totalChars (f : Form) : Nat := (removeWhiteSpace f.text).length

/-- The array `textMetrics.charWidths` for a form (lines 109-138). -/
def Form.widths (m : Measurer) (f : Form) : List ℚ :=
  charWidths m f.fontSizeValue f.letterSpacingValue f.characters

/-- The template `baseTextStyle` for a form (lines 233-239). -/
def Form.base (f : Form) : List Decl :=
  baseTextStyle f.fontSizeValue (strOr f.fontWeight "700") f.fontFamily (strOr f.strokeWidth "2")

/-- The variables of the `letters-fade-in` branch after its `forEach` (lines 243-273). -/
def Form.letterState (m : Measurer) (f : Form) : LetterState :=
  lettersFadeIn f.base f.fillColor f.durationValue (f.widths m) f.characters

/-- Lines 241-287: the `text` children of the `svg` element. -/
def textElements (m : Measurer) (f : Form) : List TextEl :=
  if f.animationStyle = "letters-fade-in" then
    (f.letterState m).children
  else
    [singleText f.base f.text f.letterSpacingValue]

/-- The `svg` element built by lines 76-287 for a form whose text passed line 71. -/
def buildSvg (m : Measurer) (f : Form) : Svg :=
  { width := "100%"
    viewBox := [0, 0, FIXED_VIEWBOX_WIDTH, FIXED_VIEWBOX_HEIGHT]
    preserveAspectRatio := "xMidYMid meet"
    style := animationStyles f.animationStyle f.durationValue
      (textPathLength m f.text f.fontSizeValue f.letterSpacingValue) f.strokeColor f.fillColor
      f.totalChars
    texts := textElements m f }

/-- The markup written when the text is rejected (line 72). -/
def errorMarkup : String := "<p class=\"text-red-500 italic\">Please enter some text.</p>"

/-- The function `generateSVG`: the container and the copy button after the call. Lines
67-69 empty the container and disable the button; line 71 rejects a text that trims to
the empty string; lines 290-291 append the `svg` element and enable the button. -/
def generateSVG (m : Measurer) (f : Form) : Page :=
  if trim f.text = [] then
    { svgContainer := .html errorMarkup, copyBtnDisabled := true }
  else
    { svgContainer := .svg (buildSvg m f), copyBtnDisabled := false }

/-- The `text` elements of the page, in document order. -/
def Page.texts (p : Page) : List TextEl :=
  match p.svgContainer with
  | .svg s => s.texts
  | _ => []

/-- The style sheet embedded in the page. -/
def Page.styleSheet (p : Page) : StyleSheet :=
  match p.svgContainer with
  | .svg s => s.style
  | _ => []

/-- The x attributes of the `text` elements of a page, in document order. -/
def Page.xPositions (p : Page) : List ℚ := p.texts.map TextEl.x

/-- The number formatted into the inline `animation-delay` of an element, if it has one. -/
def TextEl.animationDelay (e : TextEl) : Option Num :=
  e.style.findSome? (fun d =>
    if d.property = "animation-delay" then
      match d.value with
      | .quantity n _ => some n
      | _ => none
    else none)

/-- The values of the inline `animation-delay` of the `text` elements of a page. -/
def Page.delays (p : Page) : List (Option ℚ) :=
  p.texts.map (fun e => e.animationDelay.map Num.val)

/-- The layout of the specification (section 4.2): `position[0] = startX` and
`position[i] = position[i-1] + width[i-1]`, one position per width. -/
def layout (startX : ℚ) : List ℚ → List ℚ
  | [] => []
  | w :: ws => startX :: layout (startX + w) ws

/-- A measurement facility every call of which throws. -/
def failingMeasurer : Measurer :=
  { getTotalLength := fun _ => none, getBBoxWidth := fun _ => none }

/-- A form with the given text, style, duration, font size and letter spacing. -/
def sampleForm (text : JsString) (style : String) (duration : ℚ) (fontSize : ℤ)
    (letterSpacing : ℚ) : Form :=
  { inputText := text, fontFamily := "Inter, sans-serif", duration := some duration,
    fontSize := some fontSize, letterSpacing := some letterSpacing, fontWeight := "700",
    strokeWidth := "2", strokeColor := "#000000", fillColor := "#ff0000",
    animationStyle := style }

/-- The text `A B` in `letters-fade-in` mode, duration 3, font size 60, no letter spacing. -/
def formAB : Form := sampleForm [65, 32, 66] "letters-fade-in" 3 60 0

/-- The text ` A` (a space, then `A`) in `letters-fade-in` mode with font size 60 and
letter spacing -30. -/
def formNegativeSpacing : Form := sampleForm [32, 65] "letters-fade-in" 3 60 (-30)

/-- The empty input text in `fill-fade` mode. -/
def formEmpty : Form := sampleForm [] "fill-fade" 3 60 0

/-- The text `AB` in `letters-fade-in` mode with duration 0.3. -/
def formShort : Form := sampleForm [65, 66] "letters-fade-in" 0.3 60 0

/-- The text `A` in `letters-fade-in` mode with duration 3. -/
def formA : Form := sampleForm [65] "letters-fade-in" 3 60 0

/-- The text `AB` in `stroke-draw` mode with duration 3. -/
def formStroke : Form := sampleForm [65, 66] "stroke-draw" 3 60 0

/-! ## White space -/

theorem trim_eq_nil_iff (s : JsString) :
    trim s = [] ↔ ∀ c ∈ s, isWhiteSpace c = true := by
  unfold trim
  rw [List.reverse_eq_nil_iff, List.dropWhile_eq_nil_iff]
  constructor
  · intro h
    have hnil : s.dropWhile isWhiteSpace = [] := by
      by_contra hne
      have hhead := List.head_dropWhile_not isWhiteSpace s hne
      have hmem : (s.dropWhile isWhiteSpace).head hne ∈ (s.dropWhile isWhiteSpace).reverse :=
        List.mem_reverse.mpr (List.head_mem hne)
      have := h _ hmem
      simp [hhead] at this
    exact List.dropWhile_eq_nil_iff.mp hnil
  · intro h x hx
    have hnil : s.dropWhile isWhiteSpace = [] := List.dropWhile_eq_nil_iff.mpr h
    rw [hnil] at hx
    simp at hx

theorem trim_singleton (c : Nat) : trim [c] = [] ↔ isWhiteSpace c = true := by
  rw [trim_eq_nil_iff]
  simp

theorem removeWhiteSpace_cons (c : Nat) (cs : List Nat) :
    (removeWhiteSpace (c :: cs)).length =
      (if trim [c] ≠ [] then 1 else 0) + (removeWhiteSpace cs).length := by
  unfold removeWhiteSpace
  by_cases h : isWhiteSpace c = true
  · have ht : trim [c] = [] := (trim_singleton c).mpr h
    simp [List.filter_cons, h, ht]
  · have ht : trim [c] ≠ [] := fun e => h ((trim_singleton c).mp e)
    simp [List.filter_cons, h, ht]
    omega

theorem removeWhiteSpace_pos (s : JsString) (h : trim s ≠ []) :
    1 ≤ (removeWhiteSpace s).length := by
  have hex : ∃ c ∈ s, isWhiteSpace c ≠ true := by
    by_contra hno
    push_neg at hno
    exact h ((trim_eq_nil_iff s).mpr hno)
  obtain ⟨c, hc, hws⟩ := hex
  have hmem : c ∈ removeWhiteSpace s := by
    unfold removeWhiteSpace
    simp [List.mem_filter, hc]
    simpa using hws
  exact List.length_pos_of_mem hmem

/-! ## Measurement -/

theorem measureLoop_charWidths (m : Measurer) (fontSize : ℤ) (letterSpacing : ℚ) :
    ∀ (cs : List Nat) (st : MeasureState),
      (measureLoop m fontSize letterSpacing cs st).charWidths =
        st.charWidths ++ cs.map (measureChar m fontSize letterSpacing) := by
  intro cs
  induction cs with
  | nil => intro st; simp [measureLoop]
  | cons c cs ih => intro st; simp [measureLoop, ih]

theorem charWidths_eq_map (m : Measurer) (fontSize : ℤ) (letterSpacing : ℚ) (cs : List Nat) :
    charWidths m fontSize letterSpacing cs = cs.map (measureChar m fontSize letterSpacing) := by
  simp [charWidths, measureLoop_charWidths]

theorem charWidths_length (m : Measurer) (fontSize : ℤ) (letterSpacing : ℚ) (cs : List Nat) :
    (charWidths m fontSize letterSpacing cs).length = cs.length := by
  simp [charWidths_eq_map]

/-! ## Layout -/

theorem layout_length (x : ℚ) (ws : List ℚ) : (layout x ws).length = ws.length := by
  induction ws generalizing x with
  | nil => rfl
  | cons w ws ih => simp [layout, ih]

theorem layout_getElem? (ws : List ℚ) :
    ∀ (x : ℚ) (i : Nat), i < ws.length → (layout x ws)[i]? = some (x + (ws.take i).sum) := by
  induction ws with
  | nil => intro x i hi; simp at hi
  | cons w ws ih =>
    intro x i hi
    cases i with
    | zero => simp [layout]
    | succ i =>
      have hi2 : i < ws.length := by simpa using hi
      simp [layout, ih (x + w) i hi2, add_assoc]

theorem layout_ge (ws : List ℚ) :
    ∀ (x : ℚ), (∀ w ∈ ws, 0 ≤ w) → ∀ y ∈ layout x ws, x ≤ y := by
  induction ws with
  | nil => intro x _ y hy; simp [layout] at hy
  | cons w ws ih =>
    intro x hw y hy
    have hw0 : 0 ≤ w := hw w (List.mem_cons_self _ _)
    simp only [layout, List.mem_cons] at hy
    rcases hy with rfl | hy
    · exact le_refl _
    · have := ih (x + w) (fun v hv => hw v (List.mem_cons_of_mem _ hv)) y hy
      linarith

theorem layout_sorted (ws : List ℚ) :
    ∀ (x : ℚ), (∀ w ∈ ws, 0 ≤ w) → (layout x ws).Sorted (· ≤ ·) := by
  induction ws with
  | nil => intro x _; simp [layout]
  | cons w ws ih =>
    intro x hw
    have hw0 : 0 ≤ w := hw w (List.mem_cons_self _ _)
    have hrest : ∀ v ∈ ws, 0 ≤ v := fun v hv => hw v (List.mem_cons_of_mem _ hv)
    simp only [layout, List.sorted_cons]
    refine ⟨?_, ih (x + w) hrest⟩
    intro y hy
    have := layout_ge ws (x + w) hrest y hy
    linarith

/-! ## The loop of the `letters-fade-in` branch -/

theorem letterEl_x (base : List Decl) (fc : String) (sd : ℚ) (c : Nat) (x : ℚ) (k : Nat) :
    (letterEl base fc sd c x k).x = x := by
  unfold letterEl
  split <;> rfl

theorem letterLoop_spec (base : List Decl) (fc : String) (sd : ℚ) :
    ∀ (cs : List Nat) (rest pre : List ℚ) (st : LetterState), rest.length = cs.length →
      ∃ news : List TextEl,
        (letterLoop base fc sd (pre ++ rest) cs pre.length st).children = st.children ++ news ∧
        news.length = cs.length ∧
        (letterLoop base fc sd (pre ++ rest) cs pre.length st).currentXPosition =
          st.currentXPosition + rest.sum ∧
        (letterLoop base fc sd (pre ++ rest) cs pre.length st).charIndex =
          st.charIndex + (removeWhiteSpace cs).length ∧
        news.map TextEl.x = layout st.currentXPosition rest ∧
        ∀ j c, cs[j]? = some c →
          news[j]? = some (letterEl base fc sd c (st.currentXPosition + (rest.take j).sum)
            (st.charIndex + (removeWhiteSpace (cs.take j)).length)) := by
  intro cs
  induction cs with
  | nil =>
    intro rest pre st hlen
    have hrest : rest = [] := List.length_eq_zero.mp (by simpa using hlen)
    subst hrest
    exact ⟨[], by simp [letterLoop, layout, removeWhiteSpace]⟩
  | cons c cs ih =>
    intro rest pre st hlen
    cases rest with
    | nil => simp at hlen
    | cons w rest =>
      have hlen2 : rest.length = cs.length := by simpa using hlen
      have hsplit : pre ++ w :: rest = (pre ++ [w]) ++ rest := by simp
      have hidx : pre.length + 1 = (pre ++ [w]).length := by simp
      have hget : (pre ++ w :: rest).getD pre.length 0 = w := by
        rw [List.getD_eq_getElem?_getD, List.getElem?_append_right (le_refl _)]
        simp
      obtain ⟨news, hch, hn, hx, hk, hxs, hel⟩ :=
        ih rest (pre ++ [w]) (letterStep base fc sd (pre ++ w :: rest) st c pre.length) hlen2
      have hstep : letterLoop base fc sd (pre ++ w :: rest) (c :: cs) pre.length st =
          letterLoop base fc sd ((pre ++ [w]) ++ rest) cs (pre ++ [w]).length
            (letterStep base fc sd (pre ++ w :: rest) st c pre.length) := by
        rw [← hidx, ← hsplit]
        rfl
      have hsx : (letterStep base fc sd (pre ++ w :: rest) st c pre.length).currentXPosition =
          st.currentXPosition + w := by
        simp only [letterStep, hget]
      have hsk : (letterStep base fc sd (pre ++ w :: rest) st c pre.length).charIndex =
          st.charIndex + (if trim [c] ≠ [] then 1 else 0) := by
        simp only [letterStep]
        split <;> rfl
      have hsc : (letterStep base fc sd (pre ++ w :: rest) st c pre.length).children =
          st.children ++ [letterEl base fc sd c st.currentXPosition st.charIndex] := by
        simp only [letterStep]
      refine ⟨letterEl base fc sd c st.currentXPosition st.charIndex :: news, ?_, ?_, ?_, ?_, ?_, ?_⟩
      · rw [hstep, hch, hsc]; simp
      · simp [hn]
      · rw [hstep, hx, hsx]; simp [add_assoc]
      · rw [hstep, hk, hsk, removeWhiteSpace_cons]; omega
      · simp [layout, letterEl_x, hxs, hsx]
      · intro j d hj
        cases j with
        | zero =>
          simp at hj
          subst hj
          simp [removeWhiteSpace]
        | succ j =>
          have hj2 : cs[j]? = some d := by simpa using hj
          have := hel j d hj2
          rw [hsx, hsk] at this
          simp only [List.getElem?_cons_succ, this, List.take_succ_cons, List.sum_cons,
            removeWhiteSpace_cons]
          congr 2
          · ring
          · omega

/-! ## Unfolding `generateSVG` -/

theorem generateSVG_of_valid (m : Measurer) (f : Form) (h : trim f.text ≠ []) :
    generateSVG m f = { svgContainer := .svg (buildSvg m f), copyBtnDisabled := false } := by
  simp [generateSVG, h]

theorem texts_of_valid (m : Measurer) (f : Form) (h : trim f.text ≠ []) :
    (generateSVG m f).texts = textElements m f := by
  simp [generateSVG_of_valid m f h, Page.texts, buildSvg]

theorem styleSheet_of_valid (m : Measurer) (f : Form) (h : trim f.text ≠ []) :
    (generateSVG m f).styleSheet = animationStyles f.animationStyle f.durationValue
      (textPathLength m f.text f.fontSizeValue f.letterSpacingValue) f.strokeColor f.fillColor
      f.totalChars := by
  simp [generateSVG_of_valid m f h, Page.styleSheet, buildSvg]

theorem widths_length (m : Measurer) (f : Form) : (f.widths m).length = f.text.length := by
  simp [Form.widths, Form.characters, charWidths_length]

theorem letterState_spec (m : Measurer) (f : Form) :
    (f.letterState m).children.length = f.text.length ∧
    (f.letterState m).currentXPosition = textXPosition + (f.widths m).sum ∧
    (f.letterState m).children.map TextEl.x = layout textXPosition (f.widths m) ∧
    ∀ j c, f.text[j]? = some c →
      (f.letterState m).children[j]? =
        some (letterEl f.base f.fillColor (staggerDelay f.durationValue f.text) c
          (textXPosition + ((f.widths m).take j).sum)
          (removeWhiteSpace (f.text.take j)).length) := by
  obtain ⟨news, hch, hn, hx, _, hxs, hel⟩ :=
    letterLoop_spec f.base f.fillColor (staggerDelay f.durationValue f.text) f.text (f.widths m) []
      { currentXPosition := textXPosition, charIndex := 0, children := [] } (widths_length m f)
  have hstate : f.letterState m = letterLoop f.base f.fillColor
      (staggerDelay f.durationValue f.text) ([] ++ f.widths m) f.text ([] : List ℚ).length
      { currentXPosition := textXPosition, charIndex := 0, children := [] } := by
    simp [Form.letterState, lettersFadeIn, Form.characters]
  rw [hstate, hch, hx]
  refine ⟨by simpa using hn, rfl, by simpa using hxs, ?_⟩
  intro j c hj
  simpa using hel j c hj

theorem text_ne_nil_of_valid (f : Form) (h : trim f.text ≠ []) : f.text ≠ [] := by
  intro hnil
  apply h
  rw [hnil]
  rfl

theorem xPositions_letters (m : Measurer) (f : Form)
    (hstyle : f.animationStyle = "letters-fade-in") (hvalid : trim f.text ≠ []) :
    (generateSVG m f).xPositions = layout textXPosition (f.widths m) := by
  simp [Page.xPositions, texts_of_valid m f hvalid, textElements, hstyle,
    (letterState_spec m f).2.2.1]

theorem xPositions_single (m : Measurer) (f : Form)
    (hstyle : f.animationStyle ≠ "letters-fade-in") (hvalid : trim f.text ≠ []) :
    (generateSVG m f).xPositions = [textXPosition] := by
  simp [Page.xPositions, texts_of_valid m f hvalid, textElements, hstyle, singleText]

/-! ## Layout of the characters -/

/-- C1: in `letters-fade-in` mode, for a text that passes the validation and the widths
measured for it, there is one width and one x attribute per character, the x attribute
of character 0 is the start offset 10, the x attribute of character `i + 1` is the one
of character `i` plus `w[i]`, and the accumulator after the last character is 10 plus
the sum of all widths. -/
theorem letters_layout_running_sum (m : Measurer) (f : Form)
    (hstyle : f.animationStyle = "letters-fade-in") (hvalid : trim f.text ≠ []) :
    (f.widths m).length = f.text.length ∧
    (generateSVG m f).xPositions.length = f.text.length ∧
    (generateSVG m f).xPositions[0]? = some 10 ∧
    (∀ i, i + 1 < f.text.length →
      ∃ x w, (generateSVG m f).xPositions[i]? = some x ∧ (f.widths m)[i]? = some w ∧
        (generateSVG m f).xPositions[i + 1]? = some (x + w)) ∧
    (f.letterState m).currentXPosition = 10 + (f.widths m).sum := by
  have hlen := widths_length m f
  have hxs := xPositions_letters m f hstyle hvalid
  have hpos : 0 < f.text.length := List.length_pos.mpr (text_ne_nil_of_valid f hvalid)
  refine ⟨hlen, ?_, ?_, ?_, ?_⟩
  · rw [hxs, layout_length, hlen]
  · rw [hxs, layout_getElem? _ _ 0 (by omega)]
    simp [textXPosition]
  · intro i hi
    have hi1 : i < (f.widths m).length := by omega
    have hi2 : i + 1 < (f.widths m).length := by omega
    refine ⟨textXPosition + ((f.widths m).take i).sum, (f.widths m)[i], ?_, ?_, ?_⟩
    · rw [hxs, layout_getElem? _ _ i hi1]
    · exact List.getElem?_eq_getElem hi1
    · rw [hxs, layout_getElem? _ _ (i + 1) hi2, List.sum_take_succ _ _ hi1, add_assoc]
  · rw [(letterState_spec m f).2.1]
    rfl

theorem letters_layout_running_sum_witness :
    formAB.animationStyle = "letters-fade-in" ∧ trim formAB.text ≠ [] ∧
    (generateSVG failingMeasurer formAB).xPositions[0]? = some 10 ∧
    (formAB.letterState failingMeasurer).currentXPosition =
      10 + (formAB.widths failingMeasurer).sum :=
  ⟨rfl, by decide,
    (letters_layout_running_sum failingMeasurer formAB rfl (by decide)).2.2.1,
    (letters_layout_running_sum failingMeasurer formAB rfl (by decide)).2.2.2.2⟩

/-- C2, as stated, fails: with font size 60 and letter spacing -30 the space has the
width 60 * 0.4 - 30 = -6, and the text made of a space and `A` is laid out at 10 and
then at 4. -/
theorem positions_decrease_with_negative_spacing :
    (0 : ℤ) < formNegativeSpacing.fontSizeValue ∧ formNegativeSpacing.text ≠ [] ∧
    (generateSVG failingMeasurer formNegativeSpacing).xPositions = [10, 4] ∧
    ¬ (generateSVG failingMeasurer formNegativeSpacing).xPositions.Sorted (· ≤ ·) := by
  have hxs : (generateSVG failingMeasurer formNegativeSpacing).xPositions = [10, 4] := by
    rw [xPositions_letters failingMeasurer formNegativeSpacing rfl (by decide)]
    norm_num [formNegativeSpacing, sampleForm, Form.widths, Form.characters, Form.text, textOr,
      Form.fontSizeValue, Form.letterSpacingValue, intOr, numOr, charWidths_eq_map, measureChar,
      failingMeasurer, trim_singleton, isWhiteSpace, layout, textXPosition]
  refine ⟨by decide, by decide, hxs, ?_⟩
  rw [hxs]
  norm_num

/-- C2, amended: for a text that passes the validation and any animation style, the
first x attribute is the start offset 10, whatever the widths are, and the x attributes
are non-decreasing in document order whenever every measured character width is
non-negative. -/
theorem positions_sorted_of_nonneg_widths (m : Measurer) (f : Form)
    (hvalid : trim f.text ≠ []) :
    (generateSVG m f).xPositions.head? = some 10 ∧
    ((∀ w ∈ f.widths m, 0 ≤ w) → (generateSVG m f).xPositions.Sorted (· ≤ ·)) := by
  by_cases hstyle : f.animationStyle = "letters-fade-in"
  · rw [xPositions_letters m f hstyle hvalid]
    refine ⟨?_, fun hw => layout_sorted _ _ hw⟩
    have hne : f.widths m ≠ [] := by
      intro hnil
      have := widths_length m f
      rw [hnil] at this
      exact text_ne_nil_of_valid f hvalid (List.length_eq_zero.mp this.symm)
    obtain ⟨w, ws, hws⟩ := List.exists_cons_of_ne_nil hne
    rw [hws]
    simp [layout, textXPosition]
  · rw [xPositions_single m f hstyle hvalid]
    simp [textXPosition]

theorem positions_sorted_of_nonneg_widths_witness :
    trim formAB.text ≠ [] ∧ (∀ w ∈ formAB.widths failingMeasurer, 0 ≤ w) ∧
    (generateSVG failingMeasurer formAB).xPositions.head? = some 10 ∧
    (generateSVG failingMeasurer formAB).xPositions.Sorted (· ≤ ·) ∧
    trim formNegativeSpacing.text ≠ [] ∧
    (generateSVG failingMeasurer formNegativeSpacing).xPositions.head? = some 10 :=
  have hwidths : formAB.widths failingMeasurer = [36, 24, 36] := by
    have htext : formAB.text = [65, 32, 66] := rfl
    rw [Form.widths, Form.characters, htext, charWidths_eq_map]
    norm_num [formAB, sampleForm, Form.fontSizeValue, Form.letterSpacingValue, intOr, numOr,
      measureChar, failingMeasurer, trim_singleton, isWhiteSpace]
  have hw : ∀ w ∈ formAB.widths failingMeasurer, 0 ≤ w := by
    rw [hwidths]
    norm_num
  ⟨by decide, hw,
    (positions_sorted_of_nonneg_widths failingMeasurer formAB (by decide)).1,
    (positions_sorted_of_nonneg_widths failingMeasurer formAB (by decide)).2 hw,
    by decide,
    (positions_sorted_of_nonneg_widths failingMeasurer formNegativeSpacing (by decide)).1⟩

/-! ## Validation -/

/-- C3, as stated, fails: for the empty input the default text is rendered, an `svg`
element is appended and the copy button is enabled. -/
theorem empty_input_is_rendered :
    formEmpty.inputText = [] ∧
    (generateSVG failingMeasurer formEmpty).svgContainer =
      .svg (buildSvg failingMeasurer formEmpty) ∧
    (generateSVG failingMeasurer formEmpty).copyBtnDisabled = false ∧
    (generateSVG failingMeasurer formEmpty).svgContainer ≠ .html errorMarkup := by
  have h := generateSVG_of_valid failingMeasurer formEmpty (by decide)
  refine ⟨rfl, ?_, ?_, ?_⟩
  · rw [h]
  · rw [h]
  · rw [h]
    simp

/-- C3, amended: `generateSVG` writes the message `Please enter some text.` and leaves
the copy button disabled exactly when the raw input is non-empty and made of white
space only; for every other raw input, the empty one included (the text is then the
default `SVG Text`), it appends the `svg` element and enables the copy button. -/
theorem generateSVG_rejects_blank_only (m : Measurer) (f : Form) :
    generateSVG m f =
      if f.inputText ≠ [] ∧ f.inputText.all isWhiteSpace = true then
        { svgContainer := .html errorMarkup, copyBtnDisabled := true }
      else
        { svgContainer := .svg (buildSvg m f), copyBtnDisabled := false } := by
  by_cases hempty : f.inputText = []
  · have htext : f.text = defaultText := by simp [Form.text, textOr, hempty]
    have hvalid : trim f.text ≠ [] := by
      rw [htext]
      decide
    rw [generateSVG_of_valid m f hvalid]
    simp [hempty]
  · have htext : f.text = f.inputText := by simp [Form.text, textOr, hempty]
    by_cases hall : f.inputText.all isWhiteSpace = true
    · have htrim : trim f.text = [] := by
        rw [htext, trim_eq_nil_iff]
        simpa using hall
      simp [generateSVG, htrim, hempty, hall]
    · have hvalid : trim f.text ≠ [] := by
        rw [htext]
        intro h
        apply hall
        simpa using (trim_eq_nil_iff _).mp h
      rw [generateSVG_of_valid m f hvalid]
      simp [hempty, hall]

/-! ## The elements of the `letters-fade-in` branch -/

theorem letterEl_nonblank (f : Form) (sd : ℚ) (c : Nat) (x : ℚ) (k : Nat)
    (h : isWhiteSpace c = false) :
    (letterEl f.base f.fillColor sd c x k).textContent = [c] ∧
    (letterEl f.base f.fillColor sd c x k).classList = ["fade-char"] ∧
    (letterEl f.base f.fillColor sd c x k).animationDelay = some (.toFixed (sd * k) 3) ∧
    "animation-delay" ∈ (letterEl f.base f.fillColor sd c x k).styleProperties := by
  have ht : trim [c] ≠ [] := by
    intro e
    have := (trim_singleton c).mp e
    simp [h] at this
  simp [letterEl, ht, TextEl.animationDelay, TextEl.styleProperties, Form.base, baseTextStyle]

theorem letterEl_blank (f : Form) (sd : ℚ) (c : Nat) (x : ℚ) (k : Nat)
    (h : isWhiteSpace c = true) :
    (letterEl f.base f.fillColor sd c x k).textContent = [c] ∧
    (letterEl f.base f.fillColor sd c x k).classList = [] ∧
    (letterEl f.base f.fillColor sd c x k).animationDelay = none ∧
    "animation-delay" ∉ (letterEl f.base f.fillColor sd c x k).styleProperties ∧
    (⟨"opacity", .text "1"⟩ : Decl) ∈ (letterEl f.base f.fillColor sd c x k).style := by
  have ht : trim [c] = [] := (trim_singleton c).mpr h
  simp [letterEl, ht, TextEl.animationDelay, TextEl.styleProperties, Form.base, baseTextStyle]

theorem texts_letters (m : Measurer) (f : Form)
    (hstyle : f.animationStyle = "letters-fade-in") (hvalid : trim f.text ≠ []) :
    (generateSVG m f).texts = (f.letterState m).children := by
  simp [texts_of_valid m f hvalid, textElements, hstyle]

theorem delays_letters (m : Measurer) (f : Form)
    (hstyle : f.animationStyle = "letters-fade-in") (hvalid : trim f.text ≠ [])
    (i c : Nat) (hc : f.text[i]? = some c) :
    (generateSVG m f).delays[i]? =
      some (if isWhiteSpace c = true then none
        else some (staggerDelay f.durationValue f.text *
          (removeWhiteSpace (f.text.take i)).length)) := by
  have hel := (letterState_spec m f).2.2.2 i c hc
  simp only [Page.delays, texts_letters m f hstyle hvalid, List.getElem?_map, hel, Option.map_some']
  by_cases hws : isWhiteSpace c = true
  · simp [hws, (letterEl_blank f _ c _ _ hws).2.2.1]
  · have hns : isWhiteSpace c = false := by simpa using hws
    simp [hns, (letterEl_nonblank f _ c _ _ hns).2.2.1, Num.val]

/-! ## Stagger of the letters -/

/-- C4, as stated, fails: for the text `A B` and duration 3 the delay of `B` is 0.5,
which is neither 0.75 nor the unit `(duration - perCharDuration) / totalChars` of the
style-sheet branch (0.9375) times 1. -/
theorem delay_of_second_letter_is_half :
    (generateSVG failingMeasurer formAB).delays[0]? = some (some (0 : ℚ)) ∧
    (generateSVG failingMeasurer formAB).delays[2]? = some (some (0.5 : ℚ)) ∧
    (generateSVG failingMeasurer formAB).delays[2]? ≠ some (some (0.75 : ℚ)) ∧
    (generateSVG failingMeasurer formAB).delays[2]? ≠
      some (some (sheetStaggerDelay formAB.durationValue formAB.totalChars * 1)) := by
  have h0 := delays_letters failingMeasurer formAB rfl (by decide) 0 65 rfl
  have h2 := delays_letters failingMeasurer formAB rfl (by decide) 2 66 rfl
  have htext : formAB.text = [65, 32, 66] := rfl
  have hd : formAB.durationValue = 3 := by
    norm_num [formAB, sampleForm, Form.durationValue, numOr]
  have hn : formAB.totalChars = 2 := by decide
  have h65 : isWhiteSpace 65 = false := by decide
  have h66 : isWhiteSpace 66 = false := by decide
  have hk0 : (removeWhiteSpace (List.take 0 [65, 32, 66])).length = 0 := by decide
  have hk2 : (removeWhiteSpace (List.take 2 [65, 32, 66])).length = 1 := by decide
  rw [htext, hd, hk0, h65] at h0
  rw [htext, hd, hk2, h66] at h2
  have hA : (generateSVG failingMeasurer formAB).delays[0]? = some (some (0 : ℚ)) := by
    rw [h0]
    norm_num [staggerDelay]
  have hB : (generateSVG failingMeasurer formAB).delays[2]? = some (some (0.5 : ℚ)) := by
    rw [h2]
    norm_num [staggerDelay]
  refine ⟨hA, hB, ?_, ?_⟩
  · rw [hB]
    norm_num
  · rw [hB, hd, hn]
    norm_num [sheetStaggerDelay, charDuration]

/-- C4, amended: in `letters-fade-in` mode, for a text that passes the validation, the
element of every character that is not white space carries the inline animation-delay
`(duration / characters.length * 0.5) * k`, printed with 3 fractional digits, where
`characters.length` counts all the characters of the text, white space included, and
`k` is the number of characters other than white space before it. -/
theorem letter_delay_formula (m : Measurer) (f : Form)
    (hstyle : f.animationStyle = "letters-fade-in") (hvalid : trim f.text ≠ [])
    (i c : Nat) (hc : f.text[i]? = some c) (hns : isWhiteSpace c = false) :
    ∃ e, (generateSVG m f).texts[i]? = some e ∧
      e.animationDelay = some (.toFixed
        ((f.durationValue / f.text.length) * 0.5 * (removeWhiteSpace (f.text.take i)).length) 3) := by
  have hel := (letterState_spec m f).2.2.2 i c hc
  refine ⟨_, by rw [texts_letters m f hstyle hvalid]; exact hel, ?_⟩
  rw [(letterEl_nonblank f _ c _ _ hns).2.2.1]
  rfl

theorem letter_delay_formula_witness :
    formAB.animationStyle = "letters-fade-in" ∧ trim formAB.text ≠ [] ∧
    formAB.text[2]? = some 66 ∧ isWhiteSpace 66 = false ∧
    (∃ e, (generateSVG failingMeasurer formAB).texts[2]? = some e ∧
      e.animationDelay = some (.toFixed
        ((formAB.durationValue / formAB.text.length) * 0.5 *
          (removeWhiteSpace (formAB.text.take 2)).length) 3)) ∧
    (formAB.durationValue / formAB.text.length) * 0.5 *
      (removeWhiteSpace (formAB.text.take 2)).length = 0.5 :=
  have hk : (removeWhiteSpace (formAB.text.take 2)).length = 1 := by decide
  have hl : formAB.text.length = 3 := rfl
  have hd : formAB.durationValue = 3 := by
    norm_num [formAB, sampleForm, Form.durationValue, numOr]
  ⟨rfl, by decide, rfl, by decide,
    letter_delay_formula failingMeasurer formAB rfl (by decide) 2 66 rfl (by decide),
    by rw [hk, hl, hd]; norm_num⟩

/-! ## One element per character -/

/-- C9: in `letters-fade-in` mode, for a text that passes the validation, there is one
`text` element per character, in the order of the text; the element of a character that
is not white space carries the class `fade-char` and an inline animation-delay; the
element of a white-space character carries no class and no animation-delay and is styled
with opacity 1; the only element rule of the style sheet selects `.fade-char`. -/
theorem letters_one_element_per_character (m : Measurer) (f : Form)
    (hstyle : f.animationStyle = "letters-fade-in") (hvalid : trim f.text ≠ []) :
    (generateSVG m f).texts.length = f.text.length ∧
    (generateSVG m f).styleSheet.selectors = [".fade-char"] ∧
    ∀ (i c : Nat), f.text[i]? = some c →
      ∃ e, (generateSVG m f).texts[i]? = some e ∧ e.textContent = [c] ∧
        (isWhiteSpace c = false →
          e.classList = ["fade-char"] ∧ "animation-delay" ∈ e.styleProperties) ∧
        (isWhiteSpace c = true →
          e.classList = [] ∧ "animation-delay" ∉ e.styleProperties ∧
          (⟨"opacity", .text "1"⟩ : Decl) ∈ e.style) := by
  refine ⟨?_, ?_, ?_⟩
  · rw [texts_letters m f hstyle hvalid]
    exact (letterState_spec m f).1
  · rw [styleSheet_of_valid m f hvalid, hstyle]
    simp [animationStyles, StyleSheet.selectors]
  · intro i c hc
    have hel := (letterState_spec m f).2.2.2 i c hc
    refine ⟨_, by rw [texts_letters m f hstyle hvalid]; exact hel, ?_, ?_, ?_⟩
    · by_cases hws : isWhiteSpace c = true
      · exact (letterEl_blank f _ c _ _ hws).1
      · exact (letterEl_nonblank f _ c _ _ (by simpa using hws)).1
    · intro hns
      exact ⟨(letterEl_nonblank f _ c _ _ hns).2.1, (letterEl_nonblank f _ c _ _ hns).2.2.2⟩
    · intro hws
      exact ⟨(letterEl_blank f _ c _ _ hws).2.1, (letterEl_blank f _ c _ _ hws).2.2.2.1,
        (letterEl_blank f _ c _ _ hws).2.2.2.2⟩

theorem letters_one_element_per_character_witness :
    formAB.animationStyle = "letters-fade-in" ∧ trim formAB.text ≠ [] ∧
    (generateSVG failingMeasurer formAB).texts.length = 3 ∧
    (generateSVG failingMeasurer formAB).styleSheet.selectors = [".fade-char"] :=
  ⟨rfl, by decide,
    (letters_one_element_per_character failingMeasurer formAB rfl (by decide)).1,
    (letters_one_element_per_character failingMeasurer formAB rfl (by decide)).2.1⟩

/-! ## Timing -/

theorem valid_of_totalChars_pos (f : Form) (h : 1 ≤ f.totalChars) : trim f.text ≠ [] := by
  intro htrim
  have hall := (trim_eq_nil_iff f.text).mp htrim
  have hnil : removeWhiteSpace f.text = [] := by
    unfold removeWhiteSpace
    rw [List.filter_eq_nil_iff]
    intro c hc
    simp [hall c hc]
  simp [Form.totalChars, hnil] at h

theorem totalChars_le_length (f : Form) : f.totalChars ≤ f.text.length := by
  unfold Form.totalChars removeWhiteSpace
  exact List.length_filter_le _ _

/-- C5, as stated, fails: for the text `AB` and duration 0.3 the delays are 0 and 0.075,
and 0.075 * 2 + 0.2 exceeds 0.3; for the text `A` and duration 3 the unit is 1.5 and
1.5 * 1 + 2.25 exceeds 3. -/
theorem stagger_sum_exceeds_duration :
    0 < formShort.durationValue ∧ formShort.totalChars = 2 ∧
    (generateSVG failingMeasurer formShort).delays[0]? = some (some (0 : ℚ)) ∧
    (generateSVG failingMeasurer formShort).delays[1]? = some (some (0.075 : ℚ)) ∧
    ¬ ((0.075 : ℚ) * formShort.totalChars +
        charDuration formShort.durationValue formShort.totalChars ≤ formShort.durationValue) ∧
    0 < formA.durationValue ∧ formA.totalChars = 1 ∧
    ¬ (staggerDelay formA.durationValue formA.characters * formA.totalChars +
        charDuration formA.durationValue formA.totalChars ≤ formA.durationValue) := by
  have h0 := delays_letters failingMeasurer formShort rfl (by decide) 0 65 rfl
  have h1 := delays_letters failingMeasurer formShort rfl (by decide) 1 66 rfl
  have htext : formShort.text = [65, 66] := rfl
  have hd : formShort.durationValue = 0.3 := by
    norm_num [formShort, sampleForm, Form.durationValue, numOr]
  have hn : formShort.totalChars = 2 := by decide
  have hdA : formA.durationValue = 3 := by
    norm_num [formA, sampleForm, Form.durationValue, numOr]
  have hnA : formA.totalChars = 1 := by decide
  have hcA : formA.characters = [65] := rfl
  have h65 : isWhiteSpace 65 = false := by decide
  have h66 : isWhiteSpace 66 = false := by decide
  have hk0 : (removeWhiteSpace (List.take 0 [65, 66])).length = 0 := by decide
  have hk1 : (removeWhiteSpace (List.take 1 [65, 66])).length = 1 := by decide
  rw [htext, hd, hk0, h65] at h0
  rw [htext, hd, hk1, h66] at h1
  refine ⟨?_, hn, ?_, ?_, ?_, ?_, hnA, ?_⟩
  · rw [hd]; norm_num
  · rw [h0]; norm_num [staggerDelay]
  · rw [h1]; norm_num [staggerDelay]
  · rw [hd, hn]; norm_num [charDuration]
  · rw [hdA]; norm_num
  · rw [hdA, hnA, hcA]; norm_num [staggerDelay, charDuration]

/-- C5, amended: in `letters-fade-in` mode, for a text with `n ≥ 2` characters other
than white space and a duration of at least 0.4, the `.fade-char` rule carries the
duration `max(0.2, duration / n * 0.75)` printed with 2 fractional digits, every
character other than white space is delayed by `duration / characters.length * 0.5`
times the number of such characters before it, and that unit times `n` plus the
per-character duration is at most the duration. -/
theorem stagger_bound (m : Measurer) (f : Form)
    (hstyle : f.animationStyle = "letters-fade-in") (hn : 2 ≤ f.totalChars)
    (hd : 0.4 ≤ f.durationValue) :
    (⟨"animation", .animations [⟨"letter-fade",
        .toFixed (max 0.2 (f.durationValue / f.totalChars * 0.75)) 2, "ease-out forwards"⟩]⟩ : Decl)
      ∈ (generateSVG m f).styleSheet.declsOf ".fade-char" ∧
    (∀ (i c : Nat), f.text[i]? = some c → isWhiteSpace c = false →
      (generateSVG m f).delays[i]? = some (some
        ((f.durationValue / f.text.length * 0.5) * (removeWhiteSpace (f.text.take i)).length))) ∧
    (f.durationValue / f.text.length * 0.5) * f.totalChars +
      max 0.2 (f.durationValue / f.totalChars * 0.75) ≤ f.durationValue := by
  have hvalid : trim f.text ≠ [] := valid_of_totalChars_pos f (by omega)
  refine ⟨?_, ?_, ?_⟩
  · rw [styleSheet_of_valid m f hvalid, hstyle]
    simp [animationStyles, StyleSheet.declsOf, charDuration]
  · intro i c hc hns
    rw [delays_letters m f hstyle hvalid i c hc]
    simp [hns, staggerDelay]
  · have hle := totalChars_le_length f
    have hd0 : (0 : ℚ) ≤ f.durationValue := by
      have : (0 : ℚ) ≤ 0.4 := by norm_num
      linarith
    have hnq : (2 : ℚ) ≤ (f.totalChars : ℚ) := by exact_mod_cast hn
    have hlq : (f.totalChars : ℚ) ≤ (f.text.length : ℚ) := by exact_mod_cast hle
    have hLpos : (0 : ℚ) < (f.text.length : ℚ) := by linarith
    have hnpos : (0 : ℚ) < (f.totalChars : ℚ) := by linarith
    have h1 : f.durationValue / f.text.length * 0.5 * f.totalChars ≤ f.durationValue / 2 := by
      have hratio : (f.totalChars : ℚ) / (f.text.length : ℚ) ≤ 1 := (div_le_one hLpos).mpr hlq
      have heq : f.durationValue / f.text.length * 0.5 * f.totalChars =
          f.durationValue / 2 * ((f.totalChars : ℚ) / (f.text.length : ℚ)) := by
        field_simp
        ring
      rw [heq]
      exact mul_le_of_le_one_right (by linarith) hratio
    have h2 : max 0.2 (f.durationValue / f.totalChars * 0.75) ≤ f.durationValue / 2 := by
      apply max_le
      · have : (0.2 : ℚ) = 0.4 / 2 := by norm_num
        linarith
      · have hq : f.durationValue / f.totalChars ≤ f.durationValue / 2 :=
          div_le_div_of_nonneg_left hd0 (by norm_num) hnq
        have hq0 : 0 ≤ f.durationValue / f.totalChars := div_nonneg hd0 hnpos.le
        have : f.durationValue / f.totalChars * 0.75 ≤ f.durationValue / f.totalChars := by
          have h75 : (0.75 : ℚ) ≤ 1 := by norm_num
          exact mul_le_of_le_one_right hq0 h75
        linarith
    linarith

theorem stagger_bound_witness :
    formAB.animationStyle = "letters-fade-in" ∧ 2 ≤ formAB.totalChars ∧
    (0.4 : ℚ) ≤ formAB.durationValue ∧
    (formAB.durationValue / formAB.text.length * 0.5) * formAB.totalChars +
      max 0.2 (formAB.durationValue / formAB.totalChars * 0.75) ≤ formAB.durationValue :=
  have hd : (0.4 : ℚ) ≤ formAB.durationValue := by
    norm_num [formAB, sampleForm, Form.durationValue, numOr]
  ⟨rfl, by decide, hd, (stagger_bound failingMeasurer formAB rfl (by decide) hd).2.2⟩

/-- C6: in `stroke-draw` mode the rule of `#animatedText` runs `stroke-draw-path` for
the whole duration with delay 0 and `fill-fade-color` for `fillDuration` after
`fillDelay`, both printed with 2 fractional digits, where `fillDelay = duration * 0.7`,
`fillDuration = duration - fillDelay`, and the two add up to the duration exactly. -/
theorem stroke_draw_timing (m : Measurer) (f : Form)
    (hstyle : f.animationStyle = "stroke-draw") (hvalid : trim f.text ≠ []) :
    ∃ fillDelay fillDuration : ℚ,
      fillDelay = f.durationValue * 0.7 ∧
      fillDuration = f.durationValue - fillDelay ∧
      fillDelay + fillDuration = f.durationValue ∧
      (⟨"animation", .animations
          [ ⟨"stroke-draw-path", .interp f.durationValue, "ease-in-out forwards"⟩,
            ⟨"fill-fade-color", .toFixed fillDuration 2, "forwards"⟩ ]⟩ : Decl)
        ∈ (generateSVG m f).styleSheet.declsOf "#animatedText" ∧
      (⟨"animation-delay", .times [.lit 0, .toFixed fillDelay 2]⟩ : Decl)
        ∈ (generateSVG m f).styleSheet.declsOf "#animatedText" := by
  refine ⟨f.durationValue * 0.7, f.durationValue - f.durationValue * 0.7, rfl, rfl, by ring, ?_, ?_⟩
  · rw [styleSheet_of_valid m f hvalid, hstyle]
    simp [animationStyles, StyleSheet.declsOf]
  · rw [styleSheet_of_valid m f hvalid, hstyle]
    simp [animationStyles, StyleSheet.declsOf]

theorem stroke_draw_timing_witness :
    formStroke.animationStyle = "stroke-draw" ∧ trim formStroke.text ≠ [] ∧
    ∃ fillDelay fillDuration : ℚ,
      fillDelay = formStroke.durationValue * 0.7 ∧
      fillDuration = formStroke.durationValue - fillDelay ∧
      fillDelay + fillDuration = formStroke.durationValue ∧
      (⟨"animation", .animations
          [ ⟨"stroke-draw-path", .interp formStroke.durationValue, "ease-in-out forwards"⟩,
            ⟨"fill-fade-color", .toFixed fillDuration 2, "forwards"⟩ ]⟩ : Decl)
        ∈ (generateSVG failingMeasurer formStroke).styleSheet.declsOf "#animatedText" ∧
      (⟨"animation-delay", .times [.lit 0, .toFixed fillDelay 2]⟩ : Decl)
        ∈ (generateSVG failingMeasurer formStroke).styleSheet.declsOf "#animatedText" :=
  ⟨rfl, by decide, stroke_draw_timing failingMeasurer formStroke rfl (by decide)⟩

/-! ## Fallback measurement -/

theorem roundHalfEven_of_near (x : ℚ) (n : ℤ) (h : |x - n| < 1 / 2) : roundHalfEven x = n := by
  rw [abs_lt] at h
  obtain ⟨h1, h2⟩ := h
  unfold roundHalfEven
  by_cases hx : (n : ℚ) ≤ x
  · have hf : ⌊x⌋ = n := by
      rw [Int.floor_eq_iff]
      constructor
      · exact hx
      · linarith
    simp only [hf]
    rw [if_pos (by linarith)]
  · push_neg at hx
    have hf : ⌊x⌋ = n - 1 := by
      rw [Int.floor_eq_iff]
      push_cast
      constructor <;> linarith
    simp only [hf]
    push_cast
    rw [if_neg (by linarith), if_pos (by linarith)]
    ring

theorem roundBinary64_of_near (q : ℚ) (e n : ℤ) (he : -1022 ≤ e) (hlo : (2 : ℚ) ^ e ≤ |q|)
    (hhi : |q| < (2 : ℚ) ^ (e + 1)) (hn : |q / 2 ^ (e - 52) - n| < 1 / 2) :
    roundBinary64 q = n * 2 ^ (e - 52) := by
  have hpos : (0 : ℚ) < |q| := lt_of_lt_of_le (by positivity) hlo
  have hq : q ≠ 0 := abs_pos.mp hpos
  have hlog : Int.log 2 |q| = e := by
    have h1 : e ≤ Int.log 2 |q| :=
      (Int.zpow_le_iff_le_log (by norm_num) hpos).mp (by exact_mod_cast hlo)
    have h2 : Int.log 2 |q| < e + 1 :=
      (Int.lt_zpow_iff_log_lt (by norm_num) hpos).mp (by exact_mod_cast hhi)
    omega
  have hexp : binary64Exponent q = e := by
    unfold binary64Exponent
    rw [hlog]
    exact max_eq_left he
  unfold roundBinary64
  rw [if_neg hq]
  simp only [hexp]
  rw [roundHalfEven_of_near _ n hn]

theorem divBinary64_23_60 : divBinary64 23 60 = 6905519428634761 * 2 ^ (-54 : ℤ) := by
  unfold divBinary64
  have := roundBinary64_of_near (23 / 60) (-2) 6905519428634761 (by norm_num)
    (by rw [abs_of_pos (by norm_num)]; norm_num) (by rw [abs_of_pos (by norm_num)]; norm_num)
    (by norm_num [abs_lt])
  rw [this]
  norm_num

theorem mulBinary64_2_150 : mulBinary64 2 150 = 300 := by
  unfold mulBinary64
  have := roundBinary64_of_near (2 * 150) 8 (300 * 2 ^ 44) (by norm_num)
    (by rw [abs_of_pos (by norm_num)]; norm_num) (by rw [abs_of_pos (by norm_num)]; norm_num)
    (by norm_num [abs_lt])
  rw [this]
  norm_num

theorem addBinary64_300_0 : addBinary64 300 0 = 300 := by
  unfold addBinary64
  have := roundBinary64_of_near (300 + 0) 8 (300 * 2 ^ 44) (by norm_num)
    (by rw [abs_of_pos (by norm_num)]; norm_num) (by rw [abs_of_pos (by norm_num)]; norm_num)
    (by norm_num [abs_lt])
  rw [this]
  norm_num

theorem mulBinary64_zero_left (b : ℚ) : mulBinary64 0 b = 0 := by
  simp [mulBinary64, roundBinary64]

theorem mulBinary64_scaled_300 :
    mulBinary64 (6905519428634761 * 2 ^ (-54 : ℤ)) 300 = 8092405580431361 * 2 ^ (-46 : ℤ) := by
  unfold mulBinary64
  have := roundBinary64_of_near (6905519428634761 * 2 ^ (-54 : ℤ) * 300) 6 8092405580431361
    (by norm_num)
    (by rw [abs_of_pos (by norm_num)]; norm_num) (by rw [abs_of_pos (by norm_num)]; norm_num)
    (by norm_num [abs_lt])
  rw [this]
  norm_num

/-- C7, as stated, fails: for the text `AB`, font size 23 and letter spacing 0 the
quotient 23 / 60 is rounded up in binary64, its product with 300 is just above 115, and
the fallback path length is 116, where the ceiling of the exact value is 115. -/
theorem fallback_path_length_above_exact_ceiling :
    failingMeasurer.getTotalLength [65, 66] = none ∧
    textPathLength failingMeasurer [65, 66] 23 0 = 116 ∧
    ((⌈(((23 : ℤ) : ℚ) / 60) *
        ((([65, 66] : JsString).length : ℚ) * 150 +
          0 * (([65, 66] : JsString).length : ℚ) * 2)⌉ : ℤ) : ℚ) = 115 ∧
    textPathLength failingMeasurer [65, 66] 23 0 ≠
      ((⌈(((23 : ℤ) : ℚ) / 60) *
        ((([65, 66] : JsString).length : ℚ) * 150 +
          0 * (([65, 66] : JsString).length : ℚ) * 2)⌉ : ℤ) : ℚ) := by
  have hcode : textPathLength failingMeasurer [65, 66] 23 0 = 116 := by
    have hceil : ⌈(8092405580431361 : ℚ) * 2 ^ (-46 : ℤ)⌉ = 116 := by
      rw [Int.ceil_eq_iff]
      norm_num
    have h23 : ((23 : ℤ) : ℚ) = 23 := by norm_num
    have h2 : ((([65, 66] : JsString).length : ℕ) : ℚ) = 2 := by norm_num
    show ((⌈mulBinary64 (divBinary64 ((23 : ℤ) : ℚ) 60)
        (addBinary64 (mulBinary64 (([65, 66] : JsString).length : ℕ) 150)
          (mulBinary64 (mulBinary64 0 (([65, 66] : JsString).length : ℕ)) 2))⌉ : ℤ) : ℚ) = 116
    rw [h23, h2, mulBinary64_zero_left, mulBinary64_zero_left, mulBinary64_2_150,
      addBinary64_300_0, divBinary64_23_60, mulBinary64_scaled_300, hceil]
    norm_num
  have hexact : ((⌈(((23 : ℤ) : ℚ) / 60) *
        ((([65, 66] : JsString).length : ℚ) * 150 +
          0 * (([65, 66] : JsString).length : ℚ) * 2)⌉ : ℤ) : ℚ) = 115 := by
    have hval : (((23 : ℤ) : ℚ) / 60) *
        ((([65, 66] : JsString).length : ℚ) * 150 +
          0 * (([65, 66] : JsString).length : ℚ) * 2) = ((115 : ℤ) : ℚ) := by
      norm_num
    rw [hval, Int.ceil_intCast]
    norm_num
  refine ⟨rfl, hcode, hexact, ?_⟩
  rw [hcode, hexact]
  norm_num

/-- C7, amended: when `getTotalLength` and every `getBBox` call throw, the path length
is the ceiling of `(fontSize / 60) * (text.length * 150 + letterSpacing * text.length *
2)` as JavaScript evaluates it, every operation rounded to binary64, and the widths
are, one per character and in the order of the text, `fontSize * 0.4 + letterSpacing`
for a white-space character and `fontSize * 0.6 + letterSpacing` for any other
character. -/
theorem fallback_measurement (m : Measurer) (text : JsString) (fontSize : ℤ)
    (letterSpacing : ℚ) (hlen : m.getTotalLength text = none)
    (hbox : ∀ c, m.getBBoxWidth c = none) :
    textPathLength m text fontSize letterSpacing =
      ((⌈mulBinary64 (divBinary64 (fontSize : ℚ) 60)
          (addBinary64 (mulBinary64 text.length 150)
            (mulBinary64 (mulBinary64 letterSpacing text.length) 2))⌉ : ℤ) : ℚ) ∧
    charWidths m fontSize letterSpacing text =
      text.map (fun c => if isWhiteSpace c = true then (fontSize : ℚ) * 0.4 + letterSpacing
        else (fontSize : ℚ) * 0.6 + letterSpacing) ∧
    (charWidths m fontSize letterSpacing text).length = text.length := by
  refine ⟨?_, ?_, charWidths_length m fontSize letterSpacing text⟩
  · simp [textPathLength, hlen]
  · rw [charWidths_eq_map]
    apply List.map_congr_left
    intro c _
    by_cases hws : isWhiteSpace c = true
    · simp [measureChar, (trim_singleton c).mpr hws, hws]
    · have ht : trim [c] ≠ [] := fun e => hws ((trim_singleton c).mp e)
      simp [measureChar, ht, hws, hbox c]

theorem fallback_measurement_witness :
    failingMeasurer.getTotalLength [65, 32, 66] = none ∧
    (∀ c, failingMeasurer.getBBoxWidth c = none) ∧
    textPathLength failingMeasurer [65, 32, 66] 60 0 =
      ((⌈mulBinary64 (divBinary64 ((60 : ℤ) : ℚ) 60)
          (addBinary64 (mulBinary64 ([65, 32, 66] : JsString).length 150)
            (mulBinary64 (mulBinary64 0 ([65, 32, 66] : JsString).length) 2))⌉ : ℤ) : ℚ) ∧
    charWidths failingMeasurer 60 0 [65, 32, 66] =
      [65, 32, 66].map (fun c => if isWhiteSpace c = true then ((60 : ℤ) : ℚ) * 0.4 + 0
        else ((60 : ℤ) : ℚ) * 0.6 + 0) :=
  ⟨rfl, fun _ => rfl,
    (fallback_measurement failingMeasurer [65, 32, 66] 60 0 rfl (fun _ => rfl)).1,
    (fallback_measurement failingMeasurer [65, 32, 66] 60 0 rfl (fun _ => rfl)).2.1⟩

/-! ## The single element of `stroke-draw` and `fill-fade` -/

/-- C8: for the styles `stroke-draw` and `fill-fade` and a text that passes the
validation, there is exactly one `text` element; its content is the whole text, it is
placed at x = 10 and y = 75 and carries the identifier `animatedText`; the only element
rule of the style sheet selects `#animatedText`, and the keyframes are those of the
selected recipe and no others. -/
theorem single_text_element (m : Measurer) (f : Form)
    (hstyle : f.animationStyle = "stroke-draw" ∨ f.animationStyle = "fill-fade")
    (hvalid : trim f.text ≠ []) :
    ∃ e, (generateSVG m f).texts = [e] ∧ e.textContent = f.text ∧ e.x = 10 ∧ e.y = 75 ∧
      e.id = some "animatedText" ∧
      (generateSVG m f).styleSheet.selectors = ["#animatedText"] ∧
      (generateSVG m f).styleSheet.keyframeNames =
        if f.animationStyle = "stroke-draw" then ["stroke-draw-path", "fill-fade-color"]
        else ["fill-fade-opacity"] := by
  have hnot : f.animationStyle ≠ "letters-fade-in" := by
    rcases hstyle with h | h <;> rw [h] <;> decide
  refine ⟨singleText f.base f.text f.letterSpacingValue, ?_, rfl, rfl, ?_, rfl, ?_, ?_⟩
  · simp [texts_of_valid m f hvalid, textElements, hnot]
  · norm_num [singleText, textYPosition, FIXED_VIEWBOX_HEIGHT]
  · rw [styleSheet_of_valid m f hvalid]
    rcases hstyle with h | h <;> rw [h] <;> simp [animationStyles, StyleSheet.selectors]
  · rw [styleSheet_of_valid m f hvalid]
    rcases hstyle with h | h <;> rw [h] <;> simp [animationStyles, StyleSheet.keyframeNames]

theorem single_text_element_witness :
    (formStroke.animationStyle = "stroke-draw" ∨ formStroke.animationStyle = "fill-fade") ∧
    trim formStroke.text ≠ [] ∧
    ∃ e, (generateSVG failingMeasurer formStroke).texts = [e] ∧ e.textContent = formStroke.text ∧
      e.x = 10 ∧ e.y = 75 ∧ e.id = some "animatedText" ∧
      (generateSVG failingMeasurer formStroke).styleSheet.selectors = ["#animatedText"] ∧
      (generateSVG failingMeasurer formStroke).styleSheet.keyframeNames =
        if formStroke.animationStyle = "stroke-draw" then ["stroke-draw-path", "fill-fade-color"]
        else ["fill-fade-opacity"] :=
  ⟨Or.inl rfl, by decide, single_text_element failingMeasurer formStroke (Or.inl rfl) (by decide)⟩

/-! ## Divisors -/

/-- C10: for a text that passes the validation, the number of characters other than
white space and the number of characters are both at least 1, so that the divisors of
the per-character duration, of the stagger unit and of the per-character delay are not
zero and the quotients are genuine. -/
theorem timing_divisors_nonzero (f : Form) (hvalid : trim f.text ≠ []) :
    1 ≤ f.totalChars ∧ 1 ≤ f.characters.length ∧
    (f.totalChars : ℚ) ≠ 0 ∧ (f.characters.length : ℚ) ≠ 0 ∧
    f.durationValue / f.totalChars * f.totalChars = f.durationValue ∧
    sheetStaggerDelay f.durationValue f.totalChars * f.totalChars =
      f.durationValue - charDuration f.durationValue f.totalChars ∧
    staggerDelay f.durationValue f.characters * f.characters.length = f.durationValue * 0.5 := by
  have hn : 1 ≤ f.totalChars := removeWhiteSpace_pos f.text hvalid
  have hl : 1 ≤ f.characters.length :=
    List.length_pos.mpr (text_ne_nil_of_valid f hvalid)
  have hnq : (f.totalChars : ℚ) ≠ 0 := by
    have : (1 : ℚ) ≤ (f.totalChars : ℚ) := by exact_mod_cast hn
    linarith
  have hlq : (f.characters.length : ℚ) ≠ 0 := by
    have : (1 : ℚ) ≤ (f.characters.length : ℚ) := by exact_mod_cast hl
    linarith
  refine ⟨hn, hl, hnq, hlq, ?_, ?_, ?_⟩
  · field_simp
  · unfold sheetStaggerDelay
    field_simp
  · unfold staggerDelay
    field_simp

theorem timing_divisors_nonzero_witness :
    trim formAB.text ≠ [] ∧ 1 ≤ formAB.totalChars ∧ 1 ≤ formAB.characters.length :=
  ⟨by decide, (timing_divisors_nonzero formAB (by decide)).1,
    (timing_divisors_nonzero formAB (by decide)).2.1⟩

end SvgText
